import Mathlib

/-!
Shallow embedding of the FishGame multiplayer server (`server.py`):
the rate limiter, the connection registry, the broadcaster with its
failure cleanup, and the message dispatch.  Python dicts are modelled as
insertion-ordered association lists (new keys are appended, updates keep
position), timestamps as integers, and the transport by an oracle
`broken : Conn → Bool` saying which connections fail on send.
-/

namespace FishGame

/-- Connection handles (Python websocket objects) are opaque; we use `Nat`. -/
abbrev Conn := Nat

/-! ### Association lists with Python-dict semantics -/

/-- `dict.get(k)` / `k in dict`: first (and only) binding for `k`. -/
def alGet {α : Type} (k : String) : List (String × α) → Option α
  | [] => none
  | (k', v) :: rest => if k' = k then some v else alGet k rest

/-- Keyed by `Conn`. -/
def alGetC {α : Type} (k : Conn) : List (Conn × α) → Option α
  | [] => none
  | (k', v) :: rest => if k' = k then some v else alGetC k rest

/-- `dict[k] = v`: replace in place if present, append otherwise. -/
def alSet {α : Type} (k : String) (v : α) : List (String × α) → List (String × α)
  | [] => [(k, v)]
  | (k', v') :: rest => if k' = k then (k, v) :: rest else (k', v') :: alSet k v rest

/-- `dict[k] = v` for `Conn` keys. -/
def alSetC {α : Type} (k : Conn) (v : α) : List (Conn × α) → List (Conn × α)
  | [] => [(k, v)]
  | (k', v') :: rest => if k' = k then (k, v) :: rest else (k', v') :: alSetC k v rest

/-- `del dict[k]` (no-op when the key is absent, callers guard membership). -/
def alErase {α : Type} (k : String) : List (String × α) → List (String × α)
  | [] => []
  | (k', v') :: rest => if k' = k then rest else (k', v') :: alErase k rest

/-- `del dict[k]` for `Conn` keys. -/
def alEraseC {α : Type} (k : Conn) : List (Conn × α) → List (Conn × α)
  | [] => []
  | (k', v') :: rest => if k' = k then rest else (k', v') :: alEraseC k rest

def alHasKeyC {α : Type} (k : Conn) (l : List (Conn × α)) : Bool :=
  (alGetC k l).isSome

/-! ### Data model -/

/-- A player's in-game coordinates. -/
structure Pos where
  x : Int
  y : Int
deriving Repr, DecidableEq

/-- The per-client entry of `game_state["players"]`. -/
structure PlayerState where
  name : String
  score : Nat
  position : Pos
  connected_at : Int
deriving Repr, DecidableEq

/-- `self.game_state`. -/
structure GameState where
  players : List (String × PlayerState)
  game_started : Bool
deriving Repr, DecidableEq

/-- Rate limiter state: `message_times`, per-client recent timestamps. -/
abbrev RateState := List (String × List Int)

/-- The whole mutable server state of `GameServer`. -/
structure ServerState where
  lobby_code : String
  clients : List (Conn × String)
  rate : RateState
  game_state : GameState
deriving Repr, DecidableEq

/-- Server→client messages (`send_message` / `broadcast_message` payloads). -/
inductive SMsg where
  | welcome (client_id player_name lobby_code : String)
  | error (message : String)
  | player_joined (player_name client_id : String) (total_players : Nat)
  | player_left (player_name client_id : String) (total_players : Nat)
  | game_state (state : GameState)
  | chat_message (player_name client_id text : String) (timestamp : Int)
  | player_moved (client_id : String) (position : Pos)
  | player_cast_line (client_id : String) (cast_position : Pos)
  | pong
deriving Repr, DecidableEq

/-- Observable I/O actions on the transport. -/
inductive Event where
  | sent (dest : Conn) (msg : SMsg)
  | closed (c : Conn) (code : Nat) (reason : String)
deriving Repr, DecidableEq

/-- `data` payload of a `player_action` message; absent dict keys are `none`. -/
structure ActionData where
  action : Option String
  x : Option Int
  y : Option Int
deriving Repr, DecidableEq

/-- Decoded client→server messages, tagged by their `type` field. -/
inductive CMsg where
  | join_lobby (lobby_code player_name : Option String)
  | ping
  | get_game_state
  | player_action (data : ActionData)
  | chat_message (text : Option String)
  | other (tag : String)
deriving Repr, DecidableEq

/-! ### RateLimiter -/

/-- Timestamps still inside the trailing window at `now`
(`current_time - msg_time < self.window_seconds`). -/
def pruneWindow (window : Int) (now : Int) (ts : List Int) : List Int :=
  ts.filter (fun t => now - t < window)

/-- `RateLimiter.is_allowed`: prune the client's window, refuse (recording
nothing) when the pruned count is at the ceiling, otherwise record `now`. -/
def isAllowed (maxMessages : Nat) (window : Int) (client_id : String)
    (now : Int) (rs : RateState) : Bool × RateState :=
  let entry := (alGet client_id rs).getD []
  let pruned := pruneWindow window now entry
  if maxMessages ≤ pruned.length then
    (false, alSet client_id pruned rs)
  else
    (true, alSet client_id (pruned ++ [now]) rs)

/-- `RateLimiter.remove_client`. -/
def rateRemoveClient (client_id : String) (rs : RateState) : RateState :=
  alErase client_id rs

/-- Python `str.strip()`: drop leading and trailing whitespace. -/
def pyStrip (s : String) : String :=
  String.mk (((s.data.dropWhile Char.isWhitespace).reverse.dropWhile
    Char.isWhitespace).reverse)

/-- Python `str.upper()`. -/
def pyUpper (s : String) : String :=
  String.mk (s.data.map Char.toUpper)

/-- `GameServer.__init__` passes `max_messages=15, window_seconds=1`. -/
def serverMaxMessages : Nat := 15
def serverWindow : Int := 1

/-- Client id minting: `f"client_{len(self.clients) + 1}_{int(time.time())}"`. -/
def mintClientId (numClients : Nat) (now : Int) : String :=
  "client_" ++ toString (numClients + 1) ++ "_" ++ toString now

/-- `send_message`: a failed send is swallowed (logged only). -/
def sendMessage (broken : Conn → Bool) (c : Conn) (m : SMsg) : List Event :=
  if broken c then [] else [Event.sent c m]

/-! ### Broadcaster and unregistration

`broadcast_message` and `unregister_client` are mutually recursive in the
source: a broadcast unregisters every recipient whose send failed, and each
unregistration broadcasts `player_left` to the remaining clients.  We embed
them with a fuel parameter (`none` = fuel exhausted) and prove below that
fuel `3 * |clients| + 2` always suffices — that sufficiency theorem is the
termination argument of the Python recursion. -/

/-- Removal part of `unregister_client`, before its `player_left` broadcast:
drop the connection, its `PlayerState` and its rate window. -/
def removeConn (ws : Conn) (client_id : String) (st : ServerState) : ServerState :=
  { st with
    clients := alEraseC ws st.clients
    rate := rateRemoveClient client_id st.rate
    game_state := { st.game_state with
                    players := alErase client_id st.game_state.players } }

mutual

/-- `broadcast_message(message, exclude)`: early-return on an empty registry,
one fan-out pass collecting failed recipients, then unregister each of them. -/
def broadcastF (broken : Conn → Bool) :
    Nat → SMsg → Option Conn → ServerState → Option (List Event × ServerState)
  | 0, _, _, _ => none
  | fuel + 1, msg, exclude, st =>
    if st.clients = [] then some ([], st)
    else
      let recipients := (st.clients.map Prod.fst).filter (fun c => some c ≠ exclude)
      let sends := (recipients.filter (fun c => ¬ broken c)).map
        (fun c => Event.sent c msg)
      let disconnected := recipients.filter (fun c => broken c)
      match cleanupF broken fuel disconnected st with
      | none => none
      | some (evs, st') => some (sends ++ evs, st')
  termination_by fuel _ _ _ => (fuel, 0, 0)

/-- The post-pass cleanup loop of `broadcast_message`:
`for websocket in disconnected: await self.unregister_client(websocket)`. -/
def cleanupF (broken : Conn → Bool) :
    Nat → List Conn → ServerState → Option (List Event × ServerState)
  | _, [], st => some ([], st)
  | 0, _ :: _, _ => none
  | fuel + 1, d :: rest, st =>
    match unregisterF broken fuel d st with
    | none => none
    | some (evs, st') =>
      match cleanupF broken (fuel + 1) rest st' with
      | none => none
      | some (evs', st'') => some (evs ++ evs', st'')
  termination_by fuel ds _ => (fuel, 1, ds.length)

/-- `unregister_client(websocket)`: when the connection is registered, remove
it and its state, then broadcast `player_left` to the remaining clients;
otherwise do nothing. -/
def unregisterF (broken : Conn → Bool) :
    Nat → Conn → ServerState → Option (List Event × ServerState)
  | 0, _, _ => none
  | fuel + 1, ws, st =>
    match alGetC ws st.clients with
    | none => some ([], st)
    | some client_id =>
      let player_name :=
        (((alGet client_id st.game_state.players).map PlayerState.name).getD "Unknown")
      let st' := removeConn ws client_id st
      match broadcastF broken fuel
          (SMsg.player_left player_name client_id st'.clients.length) none st' with
      | none => none
      | some (evs, st'') => some (evs, st'')
  termination_by fuel _ _ => (fuel, 0, 1)

end

/-- Fuel proved sufficient below: the recursion passes through at most three
frames (broadcast → cleanup → unregister) per registered client. -/
def enoughFuel (st : ServerState) : Nat := 3 * st.clients.length + 3

/-- `broadcast_message` as called by the server (fuel is an artefact of the
embedding; sufficiency is proved, so the default branch is never taken). -/
def broadcastMessage (broken : Conn → Bool) (msg : SMsg) (exclude : Option Conn)
    (st : ServerState) : List Event × ServerState :=
  (broadcastF broken (enoughFuel st) msg exclude st).getD ([], st)

/-- `unregister_client` as called by the server. -/
def unregisterClient (broken : Conn → Bool) (ws : Conn) (st : ServerState) :
    List Event × ServerState :=
  (unregisterF broken (enoughFuel st) ws st).getD ([], st)

/-! ### Registration -/

/-- The payload of a `join_lobby` message (`client_data` in the source). -/
structure JoinData where
  lobby_code : Option String
  player_name : Option String
deriving Repr, DecidableEq

/-- `register_client(websocket, client_data)`: validate the normalized lobby
code, enforce the capacity of 2, mint a client id, insert the player, send
`welcome` to the joiner and broadcast `player_joined` to everyone else.
Returns the source's boolean together with the emitted events and new state. -/
def registerClient (broken : Conn → Bool) (ws : Conn) (cd : JoinData)
    (now : Int) (st : ServerState) : Bool × List Event × ServerState :=
  let provided_code := pyUpper (pyStrip (cd.lobby_code.getD ""))
  let player_name :=
    cd.player_name.getD ("Player_" ++ toString (st.clients.length + 1))
  if provided_code ≠ st.lobby_code then
    (false, sendMessage broken ws (SMsg.error "Invalid lobby code"), st)
  else if 2 ≤ st.clients.length then
    (false, sendMessage broken ws (SMsg.error "Lobby is full"), st)
  else
    let client_id := mintClientId st.clients.length now
    let ps : PlayerState :=
      { name := player_name, score := 0, position := ⟨0, 0⟩, connected_at := now }
    let st' : ServerState :=
      { st with
        clients := alSetC ws client_id st.clients
        game_state := { st.game_state with
                        players := alSet client_id ps st.game_state.players } }
    let welcomeEvs :=
      sendMessage broken ws (SMsg.welcome client_id player_name st.lobby_code)
    let joined := broadcastMessage broken
      (SMsg.player_joined player_name client_id st'.clients.length) (some ws) st'
    (true, welcomeEvs ++ joined.1, joined.2)

/-! ### Message dispatch -/

/-- `handle_player_action(websocket, client_id, action_data)`.  The source
indexes `game_state["players"][client_id]` directly on `move`; a missing key
raises `KeyError`, which `handle_message`'s catch-all turns into a generic
error reply — the `none` branch embeds that path. -/
def handlePlayerAction (broken : Conn → Bool) (ws : Conn) (client_id : String)
    (ad : ActionData) (st : ServerState) : List Event × ServerState :=
  let action_type := ad.action.getD ""
  if action_type = "move" then
    let new_x := max 0 (min 800 (ad.x.getD 0))
    let new_y := max 0 (min 600 (ad.y.getD 0))
    match alGet client_id st.game_state.players with
    | none =>
      (sendMessage broken ws (SMsg.error "Server error processing your request"), st)
    | some ps =>
      let st' : ServerState :=
        { st with
          game_state := { st.game_state with
            players := alSet client_id { ps with position := ⟨new_x, new_y⟩ }
              st.game_state.players } }
      broadcastMessage broken (SMsg.player_moved client_id ⟨new_x, new_y⟩) none st'
  else if action_type = "cast_line" then
    let cast_x := ad.x.getD 0
    let cast_y := ad.y.getD 0
    broadcastMessage broken (SMsg.player_cast_line client_id ⟨cast_x, cast_y⟩) none st
  else
    ([], st)

/-- `handle_message(websocket, message)`: look up the sender, consult the rate
limiter, then dispatch on the message type.  On `chat_message` the source
indexes `game_state["players"][client_id]["name"]`; the `none` branch embeds
the resulting `KeyError` → generic-error path of the surrounding handler. -/
def handleMessage (broken : Conn → Bool) (ws : Conn) (msg : CMsg) (now : Int)
    (st : ServerState) : List Event × ServerState :=
  match alGetC ws st.clients with
  | none => ([], st)
  | some client_id =>
    let checked := isAllowed serverMaxMessages serverWindow client_id now st.rate
    let st := { st with rate := checked.2 }
    if ¬ checked.1 then
      (sendMessage broken ws (SMsg.error "Rate limit exceeded. Slow down!"), st)
    else
      match msg with
      | CMsg.ping => (sendMessage broken ws SMsg.pong, st)
      | CMsg.get_game_state =>
        (sendMessage broken ws (SMsg.game_state st.game_state), st)
      | CMsg.player_action ad => handlePlayerAction broken ws client_id ad st
      | CMsg.chat_message text =>
        let chat_text := pyStrip (text.getD "")
        if chat_text ≠ "" ∧ chat_text.length ≤ 200 then
          match alGet client_id st.game_state.players with
          | none =>
            (sendMessage broken ws (SMsg.error "Server error processing your request"), st)
          | some ps =>
            broadcastMessage broken
              (SMsg.chat_message ps.name client_id chat_text now) none st
        else
          ([], st)
      | CMsg.join_lobby _ _ => ([], st)
      | CMsg.other _ => ([], st)

/-! ### Connection handler (handshake phase) -/

/-- The first-message step of `handle_client`: a `join_lobby` goes to
`register_client` and a failure closes the socket with 1008; any other type
gets an error reply and the same close.  Returns `client_registered`. -/
def handleFirstMessage (broken : Conn → Bool) (ws : Conn) (msg : CMsg)
    (now : Int) (st : ServerState) : Bool × List Event × ServerState :=
  match msg with
  | CMsg.join_lobby code name =>
    let r := registerClient broken ws ⟨code, name⟩ now st
    if r.1 then
      (true, r.2.1, r.2.2)
    else
      (false, r.2.1 ++ [Event.closed ws 1008 "Registration failed"], r.2.2)
  | _ =>
    (false,
      sendMessage broken ws (SMsg.error "First message must be join_lobby")
        ++ [Event.closed ws 1008 "Invalid handshake"], st)

/-- A transport on which every send succeeds. -/
def neverBroken : Conn → Bool := fun _ => false

/-! ### Association-list lemmas -/

theorem alGetC_eq_none {α : Type} (k : Conn) (l : List (Conn × α)) :
    alGetC k l = none ↔ k ∉ l.map Prod.fst := by
  induction l with
  | nil => simp [alGetC]
  | cons p rest ih =>
    obtain ⟨k', v⟩ := p
    by_cases h : k' = k
    · subst h; simp [alGetC]
    · rw [alGetC, if_neg h]
      simp only [List.map_cons, List.mem_cons]
      rw [ih]
      constructor
      · intro hk hmem
        rcases hmem with he | hm
        · exact h he.symm
        · exact hk hm
      · intro hk hm
        exact hk (Or.inr hm)

theorem alSetC_of_not_mem {α : Type} (k : Conn) (v : α) (l : List (Conn × α))
    (h : alGetC k l = none) : alSetC k v l = l ++ [(k, v)] := by
  induction l with
  | nil => simp [alSetC]
  | cons p rest ih =>
    obtain ⟨k', v'⟩ := p
    by_cases hk : k' = k
    · simp [alGetC, hk] at h
    · simp [alGetC, hk] at h
      simp [alSetC, hk, ih h]

theorem mem_alEraseC {α : Type} (k : Conn) (l : List (Conn × α)) (p : Conn × α)
    (h : p ∈ alEraseC k l) : p ∈ l := by
  induction l with
  | nil => simp [alEraseC] at h
  | cons q rest ih =>
    obtain ⟨k', v'⟩ := q
    by_cases hk : k' = k
    · simp [alEraseC, hk] at h
      exact List.mem_cons_of_mem _ h
    · simp only [alEraseC, if_neg hk, List.mem_cons] at h
      rcases h with h | h
      · exact h ▸ List.mem_cons_self _ _
      · exact List.mem_cons_of_mem _ (ih h)

theorem length_alEraseC {α : Type} (k : Conn) (l : List (Conn × α)) (v : α)
    (h : alGetC k l = some v) : (alEraseC k l).length + 1 = l.length := by
  induction l with
  | nil => simp [alGetC] at h
  | cons q rest ih =>
    obtain ⟨k', v'⟩ := q
    by_cases hk : k' = k
    · simp [alEraseC, hk]
    · simp only [alGetC, if_neg hk] at h
      simp [alEraseC, hk, ih h]

theorem alGetC_alEraseC {α : Type} (k : Conn) (l : List (Conn × α))
    (h : (l.map Prod.fst).Nodup) : alGetC k (alEraseC k l) = none := by
  induction l with
  | nil => simp [alEraseC, alGetC]
  | cons q rest ih =>
    obtain ⟨k', v'⟩ := q
    simp only [List.map_cons, List.nodup_cons] at h
    by_cases hk : k' = k
    · rw [alEraseC, if_pos hk]
      rw [alGetC_eq_none]
      exact hk ▸ h.1
    · rw [alEraseC, if_neg hk, alGetC, if_neg hk]
      exact ih h.2

theorem alGet_alSet_self {α : Type} (k : String) (v : α) (l : List (String × α)) :
    alGet k (alSet k v l) = some v := by
  induction l with
  | nil => simp [alSet, alGet]
  | cons q rest ih =>
    obtain ⟨k', v'⟩ := q
    by_cases hk : k' = k
    · simp [alSet, hk, alGet]
    · simp [alSet, hk, alGet, ih]

theorem alSet_eq_of_alGet {α : Type} (k : String) (v : α) (l : List (String × α))
    (h : alGet k l = some v) : alSet k v l = l := by
  induction l with
  | nil => simp [alGet] at h
  | cons q rest ih =>
    obtain ⟨k', v'⟩ := q
    by_cases hk : k' = k
    · simp only [alGet, if_pos hk] at h
      injection h with h
      simp [alSet, hk, h]
    · simp only [alGet, if_neg hk] at h
      simp [alSet, hk, ih h]

/-! ### Broadcaster lemmas -/

/-- With no failing recipient the fan-out pass finds nothing to clean up:
the broadcast sends to every registered connection except `exclude` and
leaves the state untouched. -/
theorem broadcastF_noBroken (broken : Conn → Bool) (fuel : Nat) (msg : SMsg)
    (exclude : Option Conn) (st : ServerState)
    (h : ∀ p ∈ st.clients, broken p.1 = false) :
    broadcastF broken (fuel + 1) msg exclude st =
      some (((st.clients.map Prod.fst).filter (fun c => some c ≠ exclude)).map
              (fun c => Event.sent c msg), st) := by
  rw [broadcastF]
  by_cases hemp : st.clients = []
  · simp [hemp]
  · rw [if_neg hemp]
    have hdis : ((st.clients.map Prod.fst).filter (fun c => some c ≠ exclude)).filter
        (fun c => broken c) = [] := by
      rw [List.filter_eq_nil_iff]
      intro c hc
      have hc' := List.mem_filter.mp hc
      obtain ⟨p, hp, hpc⟩ := List.mem_map.mp hc'.1
      simp [hpc ▸ h p hp]
    have hkeep : ((st.clients.map Prod.fst).filter (fun c => some c ≠ exclude)).filter
        (fun c => ¬ broken c) = (st.clients.map Prod.fst).filter (fun c => some c ≠ exclude) := by
      rw [List.filter_eq_self]
      intro c hc
      have hc' := List.mem_filter.mp hc
      obtain ⟨p, hp, hpc⟩ := List.mem_map.mp hc'.1
      simp [hpc ▸ h p hp]
    simp only [hdis, hkeep, cleanupF, List.append_nil]

/-- Fuel sufficiency for the broadcast/unregister recursion: with fuel at
least `3·|clients| + k` (`k` = 3, 2, 1 for the three entry points) the
computation never runs out, and the registered set never grows — each
unregistration strictly shrinks it, which is exactly why the Python
recursion terminates. -/
theorem fuelSuff (broken : Conn → Bool) : ∀ fuel : Nat,
    (∀ msg exclude st, 3 * st.clients.length + 3 ≤ fuel →
      ∃ r, broadcastF broken fuel msg exclude st = some r ∧
        r.2.clients.length ≤ st.clients.length) ∧
    (∀ ds st, 3 * st.clients.length + 2 ≤ fuel →
      ∃ r, cleanupF broken fuel ds st = some r ∧
        r.2.clients.length ≤ st.clients.length) ∧
    (∀ ws st, 3 * st.clients.length + 1 ≤ fuel →
      ∃ r, unregisterF broken fuel ws st = some r ∧
        r.2.clients.length ≤ st.clients.length) := by
  intro fuel
  induction fuel with
  | zero =>
    refine ⟨fun _ _ _ h => absurd h (by omega), fun _ _ h => absurd h (by omega),
      fun _ _ h => absurd h (by omega)⟩
  | succ g ih =>
    obtain ⟨ihB, ihC, ihU⟩ := ih
    have hU : ∀ ws st, 3 * st.clients.length + 1 ≤ g + 1 →
        ∃ r, unregisterF broken (g + 1) ws st = some r ∧
          r.2.clients.length ≤ st.clients.length := by
      intro ws st h
      cases halg : alGetC ws st.clients with
      | none => exact ⟨([], st), by rw [unregisterF, halg], le_refl _⟩
      | some cid =>
        have hlen := length_alEraseC ws st.clients cid halg
        obtain ⟨rb, hB, hlenb⟩ := ihB
          (SMsg.player_left
            (((alGet cid st.game_state.players).map PlayerState.name).getD "Unknown")
            cid (removeConn ws cid st).clients.length)
          none (removeConn ws cid st)
          (by simp only [removeConn]; omega)
        refine ⟨rb, ?_, ?_⟩
        · rw [unregisterF, halg]
          simp only [hB]
        · simp only [removeConn] at hlenb
          omega
    have hC : ∀ ds st, 3 * st.clients.length + 2 ≤ g + 1 →
        ∃ r, cleanupF broken (g + 1) ds st = some r ∧
          r.2.clients.length ≤ st.clients.length := by
      intro ds
      induction ds with
      | nil => intro st _; exact ⟨([], st), by simp [cleanupF], le_refl _⟩
      | cons d rest ihds =>
        intro st h
        obtain ⟨⟨evs, st'⟩, hu, hlu⟩ := ihU d st (by omega)
        have hlu' : st'.clients.length ≤ st.clients.length := hlu
        obtain ⟨⟨evs', st''⟩, hc, hlc⟩ := ihds st' (by omega)
        have hlc' : st''.clients.length ≤ st'.clients.length := hlc
        refine ⟨(evs ++ evs', st''), ?_, hlc'.trans hlu'⟩
        rw [cleanupF, hu]
        simp only [hc]
    refine ⟨?_, hC, hU⟩
    intro msg exclude st h
    by_cases hemp : st.clients = []
    · exact ⟨([], st), by rw [broadcastF, if_pos hemp], le_refl _⟩
    · obtain ⟨⟨evs, st'⟩, hc, hlc⟩ := ihC
        (((st.clients.map Prod.fst).filter (fun c => some c ≠ exclude)).filter
          (fun c => broken c)) st (by omega)
      refine ⟨((((st.clients.map Prod.fst).filter (fun c => some c ≠ exclude)).filter
          (fun c => ¬ broken c)).map (fun c => Event.sent c msg) ++ evs, st'), ?_, hlc⟩
      rw [broadcastF, if_neg hemp]
      simp only [hc]

theorem alSet_alSet {α : Type} (k : String) (v v' : α) (l : List (String × α)) :
    alSet k v' (alSet k v l) = alSet k v' l := by
  induction l with
  | nil => simp [alSet]
  | cons q rest ih =>
    obtain ⟨k', w⟩ := q
    by_cases hk : k' = k
    · simp [alSet, hk]
    · simp [alSet, hk, ih]

/-- `broadcast_message` with no failing recipient, at the fuel the server
uses: one send per registered connection other than `exclude`, state kept. -/
theorem broadcastMessage_noBroken (broken : Conn → Bool) (msg : SMsg)
    (exclude : Option Conn) (st : ServerState)
    (h : ∀ p ∈ st.clients, broken p.1 = false) :
    broadcastMessage broken msg exclude st =
      (((st.clients.map Prod.fst).filter (fun c => some c ≠ exclude)).map
        (fun c => Event.sent c msg), st) := by
  unfold broadcastMessage
  rw [show enoughFuel st = (3 * st.clients.length + 2) + 1 from rfl]
  rw [broadcastF_noBroken broken _ msg exclude st h]
  rfl

/-- Test harness: run `is_allowed` once per listed timestamp, threading the
limiter state, and collect the verdicts. -/
def rateRun (maxMessages : Nat) (window : Int) (client_id : String) :
    RateState → List Int → List Bool × RateState
  | rs, [] => ([], rs)
  | rs, t :: ts =>
    let c := isAllowed maxMessages window client_id t rs
    let r := rateRun maxMessages window client_id c.2 ts
    (c.1 :: r.1, r.2)

/-! ## Claims -/

/-- C7: every broadcast terminates: with the fuel the server wrapper supplies
(`3·|clients| + 3`, three frames per client of the broadcast → cleanup →
unregister recursion), the computation always produces a result — the
fan-out pass runs to completion, failed recipients are unregistered only in
the cleanup that follows it, and the cascade is finite because every
unregistration strictly shrinks the registered set, so the final registered
set is no larger than the initial one. -/
theorem broadcast_message_terminates (broken : Conn → Bool) (msg : SMsg)
    (exclude : Option Conn) (st : ServerState) :
    ∃ r, broadcastF broken (enoughFuel st) msg exclude st = some r ∧
      broadcastMessage broken msg exclude st = r ∧
      r.2.clients.length ≤ st.clients.length := by
  obtain ⟨r, hr, hlen⟩ :=
    (fuelSuff broken (enoughFuel st)).1 msg exclude st (le_refl _)
  exact ⟨r, hr, by unfold broadcastMessage; rw [hr]; rfl, hlen⟩

/-- Invariant of a run of `is_allowed` calls that all land inside one window:
starting from a state whose entry for `id` is `done`, every call is admitted
and the entry ends up holding every timestamp. -/
theorem rateRun_allows (N : Nat) (W : Int) (id : String) :
    ∀ (ts done : List Int) (rs : RateState),
    alGet id rs = some done →
    done.length + ts.length ≤ N →
    (∀ a ∈ done ++ ts, ∀ b ∈ done ++ ts, a - b < W) →
    rateRun N W id rs ts = (List.replicate ts.length true, alSet id (done ++ ts) rs) := by
  intro ts
  induction ts with
  | nil =>
    intro done rs h _ _
    simp [rateRun, alSet_eq_of_alGet id done rs h]
  | cons t ts' ih =>
    intro done rs h hlen hW
    simp only [List.length_cons] at hlen
    have hmem : ∀ x ∈ (done ++ [t]) ++ ts', x ∈ done ++ t :: ts' := by
      intro x hx
      simp only [List.mem_append, List.mem_cons, List.mem_singleton] at hx ⊢
      tauto
    have hprune : pruneWindow W t done = done := by
      rw [pruneWindow, List.filter_eq_self]
      intro a ha
      have := hW t (by simp) a (by simp [ha])
      simpa using this
    have hfirst : isAllowed N W id t rs = (true, alSet id (done ++ [t]) rs) := by
      rw [isAllowed, h]
      simp only [Option.getD_some, hprune]
      rw [if_neg (by omega)]
    have hrec := ih (done ++ [t]) (alSet id (done ++ [t]) rs)
      (alGet_alSet_self id (done ++ [t]) rs)
      (by simp only [List.length_append, List.length_singleton]; omega)
      (fun a ha b hb => hW a (hmem a ha) b (hmem b hb))
    rw [rateRun]
    simp only [hfirst, hrec, alSet_alSet, List.length_cons, List.replicate_succ,
      List.append_assoc, List.singleton_append]

/-- C3: for a fixed ceiling `N` and window `W`, an identity with no recorded
state gets `true` from each of its first `N` calls made inside one window
(which end up recorded in order), the `(N+1)`-th call inside that same
window gets `false` and leaves the limiter state completely unchanged (the
rejected attempt records no timestamp), and a call made once the oldest
recorded timestamp has aged past `W` is admitted again. -/
theorem is_allowed_window (N : Nat) (W : Int) (id : String) (rs : RateState)
    (times : List Int) (tNext tLate : Int)
    (hne : times ≠ [])
    (hstart : alGet id rs = none)
    (hsorted : times.Chain' (· ≤ ·))
    (hspan : ∀ a ∈ times, ∀ b ∈ times, a - b < W)
    (hN : times.length = N)
    (hnext : ∀ a ∈ times, tNext - a < W)
    (hlate : W ≤ tLate - times.head hne) :
    (rateRun N W id rs times).1 = List.replicate N true ∧
    (rateRun N W id rs times).2 = alSet id times rs ∧
    isAllowed N W id tNext (alSet id times rs) = (false, alSet id times rs) ∧
    (isAllowed N W id tLate (alSet id times rs)).1 = true := by
  obtain ⟨t, rest, rfl⟩ : ∃ t rest, times = t :: rest := by
    cases times with
    | nil => exact absurd rfl hne
    | cons t rest => exact ⟨t, rest, rfl⟩
  subst hN
  have hfirst : isAllowed (t :: rest).length W id t rs = (true, alSet id [t] rs) := by
    rw [isAllowed, hstart]
    simp [pruneWindow]
  have hrec := rateRun_allows (t :: rest).length W id rest [t] (alSet id [t] rs)
    (alGet_alSet_self id [t] rs)
    (by simp only [List.length_singleton, List.length_cons, List.length_nil]; omega)
    (by
      intro a ha b hb
      simp only [List.singleton_append] at ha hb
      exact hspan a ha b hb)
  have hrun : rateRun (t :: rest).length W id rs (t :: rest) =
      (List.replicate (t :: rest).length true, alSet id (t :: rest) rs) := by
    rw [rateRun]
    simp only [List.length_cons] at hfirst hrec
    simp only [List.length_cons, hfirst, hrec, alSet_alSet, List.singleton_append,
      List.replicate_succ]
  refine ⟨by rw [hrun], by rw [hrun], ?_, ?_⟩
  · have hprune : pruneWindow W tNext (t :: rest) = t :: rest := by
      rw [pruneWindow, List.filter_eq_self]
      intro a ha
      simpa using hnext a ha
    rw [isAllowed, alGet_alSet_self]
    simp only [Option.getD_some, hprune]
    rw [if_pos (le_refl _), alSet_alSet]
  · rw [isAllowed, alGet_alSet_self]
    simp only [Option.getD_some]
    rw [if_neg ?hlt]
    case hlt =>
      have hhead : ¬ (tLate - t < W) := by
        simp only [List.head_cons] at hlate
        omega
      have : pruneWindow W tLate (t :: rest) =
          pruneWindow W tLate rest := by
        rw [pruneWindow, pruneWindow, List.filter_cons]
        simp [hhead]
      rw [this]
      have := List.length_filter_le (fun a => decide (tLate - a < W)) rest
      simp only [pruneWindow, List.length_cons]
      omega

/-- Witness for C3: ceiling 2, window 10, calls at 0 and 1 admitted, a third
call at 2 refused without touching the state, a call at 10 admitted again. -/
theorem is_allowed_window_witness :
    (rateRun 2 10 "c" [] [0, 1]).1 = List.replicate 2 true ∧
    (rateRun 2 10 "c" [] [0, 1]).2 = alSet "c" [0, 1] [] ∧
    isAllowed 2 10 "c" 2 (alSet "c" [0, 1] []) = (false, alSet "c" [0, 1] []) ∧
    (isAllowed 2 10 "c" 10 (alSet "c" [0, 1] [])).1 = true :=
  is_allowed_window 2 10 "c" [] [0, 1] 2 10 (by decide) rfl
    (by norm_num [List.chain'_cons, List.chain'_singleton])
    (by decide) rfl (by decide) (by decide)

/-- What a successful registration computes: `welcome` to the joiner,
`player_joined` to everyone already registered, the client and player
appended.  (`broadcastF` is defined by well-founded recursion, so concrete
runs are evaluated through this equation rather than by kernel reduction.) -/
theorem registerClient_spec (broken : Conn → Bool) (ws : Conn) (cd : JoinData)
    (now : Int) (st : ServerState)
    (hcode : pyUpper (pyStrip (cd.lobby_code.getD "")) = st.lobby_code)
    (hcap : st.clients.length < 2)
    (hnew : alGetC ws st.clients = none)
    (hnb : ∀ p ∈ st.clients, broken p.1 = false)
    (hws : broken ws = false) :
    registerClient broken ws cd now st =
      (true,
        Event.sent ws (SMsg.welcome (mintClientId st.clients.length now)
            (cd.player_name.getD ("Player_" ++ toString (st.clients.length + 1)))
            st.lobby_code) ::
          st.clients.map (fun p => Event.sent p.1
            (SMsg.player_joined
              (cd.player_name.getD ("Player_" ++ toString (st.clients.length + 1)))
              (mintClientId st.clients.length now) (st.clients.length + 1))),
        { st with
          clients := st.clients ++ [(ws, mintClientId st.clients.length now)]
          game_state := { st.game_state with
            players := alSet (mintClientId st.clients.length now)
              { name := cd.player_name.getD ("Player_" ++ toString (st.clients.length + 1)),
                score := 0, position := ⟨0, 0⟩, connected_at := now }
              st.game_state.players } }) := by
  have hset := alSetC_of_not_mem ws (mintClientId st.clients.length now) st.clients hnew
  have hwsmem : ws ∉ st.clients.map Prod.fst := (alGetC_eq_none ws st.clients).mp hnew
  simp only [registerClient]
  rw [if_neg (by rw [hcode]; exact fun h => h rfl)]
  rw [if_neg (by omega)]
  rw [hset]
  have hnb' : ∀ p ∈ st.clients ++ [(ws, mintClientId st.clients.length now)],
      broken p.1 = false := by
    intro p hp
    rcases List.mem_append.mp hp with h | h
    · exact hnb p h
    · simp only [List.mem_singleton] at h
      rw [h]
      exact hws
  set st' : ServerState :=
    { st with
      clients := st.clients ++ [(ws, mintClientId st.clients.length now)]
      game_state := { st.game_state with
        players := alSet (mintClientId st.clients.length now)
          { name := cd.player_name.getD ("Player_" ++ toString (st.clients.length + 1)),
            score := 0, position := ⟨0, 0⟩, connected_at := now }
          st.game_state.players } } with hst'
  have hnb2 : ∀ p ∈ st'.clients, broken p.1 = false := hnb'
  rw [broadcastMessage_noBroken broken _ (some ws) st' hnb2]
  have hcl : st'.clients = st.clients ++ [(ws, mintClientId st.clients.length now)] := rfl
  rw [hcl]
  have hfilter : ((st.clients ++ [(ws, mintClientId st.clients.length now)]).map
      Prod.fst).filter (fun c => some c ≠ some ws) = st.clients.map Prod.fst := by
    rw [List.map_append, List.filter_append]
    have h1 : (st.clients.map Prod.fst).filter (fun c => some c ≠ some ws) =
        st.clients.map Prod.fst := by
      rw [List.filter_eq_self]
      intro c hc
      simp only [ne_eq, Option.some_inj, decide_not, Bool.not_eq_eq_eq_not,
        Bool.not_true, decide_eq_false_iff_not]
      intro hcw
      exact hwsmem (hcw ▸ hc)
    rw [h1]
    simp
  rw [hfilter]
  simp [sendMessage, hws, List.map_map, Function.comp]

/-- C1: a `join_lobby` whose trimmed, upper-cased code matches the lobby
code, arriving on a pending connection while fewer than 2 clients are
registered, succeeds: exactly one `welcome` goes to the joiner (with the
minted client id, resolved name and lobby code), exactly one `player_joined`
goes to each pre-existing registered connection and to nobody else, carrying
`total_players` equal to the registered count after the insertion, and the
client and its fresh `PlayerState` are appended to the registry. -/
theorem register_success (broken : Conn → Bool) (ws : Conn) (cd : JoinData)
    (now : Int) (st : ServerState)
    (hcode : pyUpper (pyStrip (cd.lobby_code.getD "")) = st.lobby_code)
    (hcap : st.clients.length < 2)
    (hnew : alGetC ws st.clients = none)
    (hnb : ∀ p ∈ st.clients, broken p.1 = false)
    (hws : broken ws = false) :
    registerClient broken ws cd now st =
      (true,
        Event.sent ws (SMsg.welcome (mintClientId st.clients.length now)
            (cd.player_name.getD ("Player_" ++ toString (st.clients.length + 1)))
            st.lobby_code) ::
          st.clients.map (fun p => Event.sent p.1
            (SMsg.player_joined
              (cd.player_name.getD ("Player_" ++ toString (st.clients.length + 1)))
              (mintClientId st.clients.length now) (st.clients.length + 1))),
        { st with
          clients := st.clients ++ [(ws, mintClientId st.clients.length now)]
          game_state := { st.game_state with
            players := alSet (mintClientId st.clients.length now)
              { name := cd.player_name.getD ("Player_" ++ toString (st.clients.length + 1)),
                score := 0, position := ⟨0, 0⟩, connected_at := now }
              st.game_state.players } }) :=
  registerClient_spec broken ws cd now st hcode hcap hnew hnb hws

/-- A concrete one-player server used by several witnesses. -/
def stW : ServerState :=
  { lobby_code := "ABC123"
    clients := [(1, "client_1_50")]
    rate := []
    game_state :=
      { players := [("client_1_50",
          { name := "Alice", score := 0, position := ⟨0, 0⟩, connected_at := 50 })]
        game_started := false } }

/-- Witness for C1: a second player joins `stW` with code `" abc123 "`; the
joiner gets the `welcome`, the pre-existing client gets the one
`player_joined` with `total_players = 2`. -/
theorem register_success_witness :
    registerClient neverBroken 2 ⟨some " abc123 ", some "Bob"⟩ 100 stW =
      (true,
        [Event.sent 2 (SMsg.welcome "client_2_100" "Bob" "ABC123"),
          Event.sent 1 (SMsg.player_joined "Bob" "client_2_100" 2)],
        { stW with
          clients := stW.clients ++ [(2, "client_2_100")]
          game_state := { stW.game_state with
            players := alSet "client_2_100"
              { name := "Bob", score := 0, position := ⟨0, 0⟩, connected_at := 100 }
              stW.game_state.players } }) := by
  have h := register_success neverBroken 2 ⟨some " abc123 ", some "Bob"⟩ 100 stW
    (by decide) (by decide) (by decide) (by decide) (by decide)
  rw [h]
  rfl

/-- C2: a failed handshake — non-`join_lobby` first message, wrong normalized
lobby code, or a join arriving with 2 clients already registered (answered
"Lobby is full") — produces exactly one `error` reply to that connection
followed by a close with status 1008, leaves the whole server state
(registry, players, rate limiter) unchanged, and never registers the
connection. -/
theorem handshake_failure (broken : Conn → Bool) (ws : Conn) (msg : CMsg)
    (now : Int) (st : ServerState)
    (hws : broken ws = false)
    (hfail :
      (∀ code name, msg ≠ CMsg.join_lobby code name) ∨
      (∃ code name, msg = CMsg.join_lobby code name ∧
        pyUpper (pyStrip (code.getD "")) ≠ st.lobby_code) ∨
      (∃ code name, msg = CMsg.join_lobby code name ∧
        pyUpper (pyStrip (code.getD "")) = st.lobby_code ∧ st.clients.length = 2)) :
    ∃ emsg reason, handleFirstMessage broken ws msg now st =
      (false, [Event.sent ws (SMsg.error emsg), Event.closed ws 1008 reason], st) ∧
      (∀ code name, msg = CMsg.join_lobby code name →
        pyUpper (pyStrip (code.getD "")) = st.lobby_code →
        2 ≤ st.clients.length → emsg = "Lobby is full") := by
  rcases hfail with hnj | ⟨code, name, rfl, hcode⟩ | ⟨code, name, rfl, hcode, hlen⟩
  · refine ⟨"First message must be join_lobby", "Invalid handshake", ?_, ?_⟩
    · cases msg with
      | join_lobby code name => exact absurd rfl (hnj code name)
      | ping => simp [handleFirstMessage, sendMessage, hws]
      | get_game_state => simp [handleFirstMessage, sendMessage, hws]
      | player_action ad => simp [handleFirstMessage, sendMessage, hws]
      | chat_message text => simp [handleFirstMessage, sendMessage, hws]
      | other tag => simp [handleFirstMessage, sendMessage, hws]
    · intro code name h
      exact absurd h (hnj code name)
  · refine ⟨"Invalid lobby code", "Registration failed", ?_, ?_⟩
    · simp only [handleFirstMessage, registerClient, if_pos hcode, sendMessage, hws,
        Bool.false_eq_true, if_false]
      simp
    · intro code' name' h hc
      injection h with h1 h2
      subst h1
      exact absurd hc hcode
  · refine ⟨"Lobby is full", "Registration failed", ?_, fun _ _ _ _ _ => rfl⟩
    simp only [handleFirstMessage, registerClient,
      if_neg (not_not_intro hcode), if_pos (by omega : 2 ≤ st.clients.length),
      sendMessage, hws, Bool.false_eq_true, if_false]
    simp

/-- A concrete full (two-player) server used by witnesses. -/
def stFull : ServerState :=
  { lobby_code := "ABC123"
    clients := [(1, "client_1_50"), (2, "client_2_60")]
    rate := []
    game_state :=
      { players :=
          [("client_1_50",
            { name := "Alice", score := 0, position := ⟨0, 0⟩, connected_at := 50 }),
           ("client_2_60",
            { name := "Bob", score := 0, position := ⟨0, 0⟩, connected_at := 60 })]
        game_started := false } }

/-- Witness for C2: a third join with the correct code against the full
two-player server gets one "Lobby is full" error and a 1008 close, with the
state untouched. -/
theorem handshake_failure_witness :
    ∃ emsg reason,
      handleFirstMessage neverBroken 3
          (CMsg.join_lobby (some "ABC123") (some "Eve")) 100 stFull =
        (false, [Event.sent 3 (SMsg.error emsg), Event.closed 3 1008 reason],
          stFull) ∧
      (∀ code name,
        CMsg.join_lobby (some "ABC123") (some "Eve") = CMsg.join_lobby code name →
        pyUpper (pyStrip (code.getD "")) = stFull.lobby_code →
        2 ≤ stFull.clients.length → emsg = "Lobby is full") :=
  handshake_failure neverBroken 3 (CMsg.join_lobby (some "ABC123") (some "Eve"))
    100 stFull (by decide)
    (Or.inr (Or.inr ⟨some "ABC123", some "Eve", rfl, by decide, by decide⟩))

/-- Unregistering a connection that is not in the registry does nothing. -/
theorem unregisterClient_noop (broken : Conn → Bool) (ws : Conn) (st : ServerState)
    (h : alGetC ws st.clients = none) :
    unregisterClient broken ws st = ([], st) := by
  unfold unregisterClient
  rw [show enoughFuel st = (3 * st.clients.length + 2) + 1 from rfl]
  rw [unregisterF, h]
  rfl

/-- What unregistering a registered connection computes: removal plus one
`player_left` per remaining client.  (Like `registerClient_spec`, this is
the evaluation equation for the well-founded `unregisterF`.) -/
theorem unregisterClient_spec (broken : Conn → Bool) (ws : Conn) (cid : String)
    (st : ServerState)
    (hreg : alGetC ws st.clients = some cid)
    (hnb : ∀ p ∈ st.clients, broken p.1 = false) :
    unregisterClient broken ws st =
      ((alEraseC ws st.clients).map (fun p => Event.sent p.1
          (SMsg.player_left
            (((alGet cid st.game_state.players).map PlayerState.name).getD "Unknown")
            cid (alEraseC ws st.clients).length)),
        removeConn ws cid st) := by
  have hnb' : ∀ p ∈ (removeConn ws cid st).clients, broken p.1 = false := by
    intro p hp
    exact hnb p (mem_alEraseC ws st.clients p hp)
  unfold unregisterClient
  rw [show enoughFuel st = (3 * st.clients.length + 2) + 1 from rfl]
  rw [unregisterF, hreg]
  have hB := broadcastF_noBroken broken (3 * st.clients.length + 1)
    (SMsg.player_left
      (((alGet cid st.game_state.players).map PlayerState.name).getD "Unknown")
      cid (removeConn ws cid st).clients.length) none (removeConn ws cid st) hnb'
  rw [show (3 * st.clients.length + 1) + 1 = 3 * st.clients.length + 2 from rfl] at hB
  simp only [hB]
  have hfilter : ((removeConn ws cid st).clients.map Prod.fst).filter
      (fun c => some c ≠ none) = (removeConn ws cid st).clients.map Prod.fst := by
    rw [List.filter_eq_self]
    intro c _
    simp
  rw [hfilter]
  have hcl : (removeConn ws cid st).clients = alEraseC ws st.clients := rfl
  rw [hcl]
  simp [List.map_map, Function.comp]

/-- C4: unregistration is idempotent.  Unregistering a registered connection
removes it from the registry, deletes its `PlayerState`, purges its rate
window, and sends exactly one `player_left` to each remaining registered
connection with `total_players` smaller by exactly one; running it again on
the now-removed connection is a state-preserving no-op with no broadcast,
and unregistering a connection that was never registered broadcasts
nothing. -/
theorem unregister_idempotent (broken : Conn → Bool) (ws : Conn) (cid : String)
    (st : ServerState)
    (hnd : (st.clients.map Prod.fst).Nodup)
    (hreg : alGetC ws st.clients = some cid)
    (hnb : ∀ p ∈ st.clients, broken p.1 = false) :
    unregisterClient broken ws st =
      ((alEraseC ws st.clients).map (fun p => Event.sent p.1
          (SMsg.player_left
            (((alGet cid st.game_state.players).map PlayerState.name).getD "Unknown")
            cid (alEraseC ws st.clients).length)),
        removeConn ws cid st) ∧
    (alEraseC ws st.clients).length + 1 = st.clients.length ∧
    unregisterClient broken ws (removeConn ws cid st) = ([], removeConn ws cid st) ∧
    (∀ st' : ServerState, alGetC ws st'.clients = none →
      unregisterClient broken ws st' = ([], st')) := by
  refine ⟨unregisterClient_spec broken ws cid st hreg hnb,
    length_alEraseC ws st.clients cid hreg, ?_,
    fun st' h => unregisterClient_noop broken ws st' h⟩
  exact unregisterClient_noop broken ws (removeConn ws cid st)
    (by
      have hcl : (removeConn ws cid st).clients = alEraseC ws st.clients := rfl
      rw [hcl]
      exact alGetC_alEraseC ws st.clients hnd)

/-- Witness for C4: dropping the second player of the full server notifies
the first with `total_players = 1`; the repeat call is a no-op. -/
theorem unregister_idempotent_witness :
    unregisterClient neverBroken 2 stFull =
      ((alEraseC 2 stFull.clients).map (fun p => Event.sent p.1
          (SMsg.player_left
            (((alGet "client_2_60" stFull.game_state.players).map
              PlayerState.name).getD "Unknown")
            "client_2_60" (alEraseC 2 stFull.clients).length)),
        removeConn 2 "client_2_60" stFull) ∧
    (alEraseC 2 stFull.clients).length + 1 = stFull.clients.length ∧
    unregisterClient neverBroken 2 (removeConn 2 "client_2_60" stFull) =
      ([], removeConn 2 "client_2_60" stFull) ∧
    (∀ st' : ServerState, alGetC 2 st'.clients = none →
      unregisterClient neverBroken 2 st' = ([], st')) :=
  unregister_idempotent neverBroken 2 "client_2_60" stFull
    (by decide) (by decide) (by decide)

/-- A `move` action from a present player: position is clamped to the
`800×600` world, stored, and broadcast to every registered connection. -/
theorem handlePlayerAction_move (broken : Conn → Bool) (ws : Conn) (cid : String)
    (ad : ActionData) (st : ServerState) (ps : PlayerState)
    (hact : ad.action = some "move")
    (hps : alGet cid st.game_state.players = some ps)
    (hnb : ∀ p ∈ st.clients, broken p.1 = false) :
    handlePlayerAction broken ws cid ad st =
      (st.clients.map (fun p => Event.sent p.1 (SMsg.player_moved cid
          ⟨max 0 (min 800 (ad.x.getD 0)), max 0 (min 600 (ad.y.getD 0))⟩)),
        { st with game_state := { st.game_state with
            players := alSet cid
              { ps with position := ⟨max 0 (min 800 (ad.x.getD 0)),
                                     max 0 (min 600 (ad.y.getD 0))⟩ }
              st.game_state.players } }) := by
  simp only [handlePlayerAction, hact, Option.getD_some, if_true]
  simp only [hps]
  set st2 : ServerState :=
    { st with game_state := { st.game_state with
        players := alSet cid
          { ps with position := ⟨max 0 (min 800 (ad.x.getD 0)),
                                 max 0 (min 600 (ad.y.getD 0))⟩ }
          st.game_state.players } } with hst2
  have hnb2 : ∀ p ∈ st2.clients, broken p.1 = false := hnb
  rw [broadcastMessage_noBroken broken _ none st2 hnb2]
  rw [show st2.clients = st.clients from rfl]
  have hfilter : (st.clients.map Prod.fst).filter (fun c => some c ≠ none) =
      st.clients.map Prod.fst := by
    rw [List.filter_eq_self]
    intro c _
    simp
  rw [hfilter]
  simp [List.map_map, Function.comp]

/-- C8: a `move` action with explicit coordinates `x`, `y` stores and
broadcasts the clamped position — `x` into `[0, 800]`, `y` into `[0, 600]` —
never the raw input: the broadcast to every registered connection and the
sender's stored `PlayerState` both carry exactly the clamped value. -/
theorem move_clamps (broken : Conn → Bool) (ws : Conn) (cid : String)
    (x y : Int) (st : ServerState) (ps : PlayerState)
    (hps : alGet cid st.game_state.players = some ps)
    (hnb : ∀ p ∈ st.clients, broken p.1 = false) :
    handlePlayerAction broken ws cid ⟨some "move", some x, some y⟩ st =
      (st.clients.map (fun p => Event.sent p.1 (SMsg.player_moved cid
          ⟨max 0 (min 800 x), max 0 (min 600 y)⟩)),
        { st with game_state := { st.game_state with
            players := alSet cid
              { ps with position := ⟨max 0 (min 800 x), max 0 (min 600 y)⟩ }
              st.game_state.players } }) ∧
    alGet cid (handlePlayerAction broken ws cid
        ⟨some "move", some x, some y⟩ st).2.game_state.players =
      some { ps with position := ⟨max 0 (min 800 x), max 0 (min 600 y)⟩ } := by
  have h := handlePlayerAction_move broken ws cid ⟨some "move", some x, some y⟩
    st ps rfl hps hnb
  simp only [Option.getD_some] at h
  exact ⟨h, by rw [h]; exact alGet_alSet_self cid _ st.game_state.players⟩

/-- Witness for C8: moving to `x = -5, y = 700` in the one-player server
stores and broadcasts `{x := 0, y := 600}`. -/
theorem move_clamps_witness :
    handlePlayerAction neverBroken 1 "client_1_50"
        ⟨some "move", some (-5), some 700⟩ stW =
      ([Event.sent 1 (SMsg.player_moved "client_1_50" ⟨0, 600⟩)],
        { stW with game_state := { stW.game_state with
            players := alSet "client_1_50"
              { name := "Alice", score := 0, position := ⟨0, 600⟩, connected_at := 50 }
              stW.game_state.players } }) ∧
    alGet "client_1_50" (handlePlayerAction neverBroken 1 "client_1_50"
        ⟨some "move", some (-5), some 700⟩ stW).2.game_state.players =
      some { name := "Alice", score := 0, position := ⟨0, 600⟩, connected_at := 50 } := by
  have h := move_clamps neverBroken 1 "client_1_50" (-5) 700 stW
    { name := "Alice", score := 0, position := ⟨0, 0⟩, connected_at := 50 }
    (by decide) (by decide)
  refine ⟨?_, ?_⟩
  · rw [h.1]; rfl
  · rw [h.2]; rfl

/-- C10: a `move` action whose payload omits `x` or `y` defaults the missing
coordinate to 0, both in the stored position and in the `player_moved`
broadcast; a move with no coordinates at all sets the position to
`{x := 0, y := 0}` instead of being rejected or leaving it unchanged. -/
theorem move_missing_defaults (broken : Conn → Bool) (ws : Conn) (cid : String)
    (st : ServerState) (ps : PlayerState)
    (hps : alGet cid st.game_state.players = some ps)
    (hnb : ∀ p ∈ st.clients, broken p.1 = false) :
    (∀ y : Int, handlePlayerAction broken ws cid ⟨some "move", none, some y⟩ st =
      (st.clients.map (fun p => Event.sent p.1 (SMsg.player_moved cid
          ⟨0, max 0 (min 600 y)⟩)),
        { st with game_state := { st.game_state with
            players := alSet cid { ps with position := ⟨0, max 0 (min 600 y)⟩ }
              st.game_state.players } })) ∧
    (∀ x : Int, handlePlayerAction broken ws cid ⟨some "move", some x, none⟩ st =
      (st.clients.map (fun p => Event.sent p.1 (SMsg.player_moved cid
          ⟨max 0 (min 800 x), 0⟩)),
        { st with game_state := { st.game_state with
            players := alSet cid { ps with position := ⟨max 0 (min 800 x), 0⟩ }
              st.game_state.players } })) ∧
    handlePlayerAction broken ws cid ⟨some "move", none, none⟩ st =
      (st.clients.map (fun p => Event.sent p.1 (SMsg.player_moved cid ⟨0, 0⟩)),
        { st with game_state := { st.game_state with
            players := alSet cid { ps with position := ⟨0, 0⟩ }
              st.game_state.players } }) := by
  have hx0 : max 0 (min 800 ((none : Option Int).getD 0)) = 0 := by decide
  have hy0 : max 0 (min 600 ((none : Option Int).getD 0)) = 0 := by decide
  refine ⟨?_, ?_, ?_⟩
  · intro y
    have h := handlePlayerAction_move broken ws cid ⟨some "move", none, some y⟩
      st ps rfl hps hnb
    rw [hx0] at h
    simpa only [Option.getD_some] using h
  · intro x
    have h := handlePlayerAction_move broken ws cid ⟨some "move", some x, none⟩
      st ps rfl hps hnb
    rw [hy0] at h
    simpa only [Option.getD_some] using h
  · have h := handlePlayerAction_move broken ws cid ⟨some "move", none, none⟩
      st ps rfl hps hnb
    rw [hx0, hy0] at h
    exact h

/-- Witness for C10: a coordinate-free move in the one-player server sets the
position to the origin and broadcasts it. -/
theorem move_missing_defaults_witness :
    handlePlayerAction neverBroken 1 "client_1_50"
        ⟨some "move", none, none⟩ stW =
      (stW.clients.map (fun p => Event.sent p.1
          (SMsg.player_moved "client_1_50" ⟨0, 0⟩)),
        { stW with game_state := { stW.game_state with
            players := alSet "client_1_50"
              { name := "Alice", score := 0, position := ⟨0, 0⟩, connected_at := 50 }
              stW.game_state.players } }) :=
  (move_missing_defaults neverBroken 1 "client_1_50" stW
    { name := "Alice", score := 0, position := ⟨0, 0⟩, connected_at := 50 }
    (by decide) (by decide)).2.2

/-- C9: a `chat_message` from a registered (and not rate-limited) sender is
first trimmed; when the trimmed text is non-empty and at most 200 characters
it is broadcast verbatim to every registered connection — the sender
included — with the sender's name, client id, text and timestamp; when it is
empty or longer than 200 characters it is silently dropped: no broadcast and
no reply. -/
theorem chat_trim_bounds (broken : Conn → Bool) (ws : Conn) (text : Option String)
    (now : Int) (st : ServerState) (cid : String) (ps : PlayerState)
    (hreg : alGetC ws st.clients = some cid)
    (hrate : (isAllowed serverMaxMessages serverWindow cid now st.rate).1 = true)
    (hps : alGet cid st.game_state.players = some ps)
    (hnb : ∀ p ∈ st.clients, broken p.1 = false) :
    ws ∈ st.clients.map Prod.fst ∧
    ((pyStrip (text.getD "") ≠ "" ∧ (pyStrip (text.getD "")).length ≤ 200) →
      handleMessage broken ws (CMsg.chat_message text) now st =
        (st.clients.map (fun p => Event.sent p.1
            (SMsg.chat_message ps.name cid (pyStrip (text.getD "")) now)),
          { st with
            rate := (isAllowed serverMaxMessages serverWindow cid now st.rate).2 })) ∧
    ((pyStrip (text.getD "") = "" ∨ 200 < (pyStrip (text.getD "")).length) →
      handleMessage broken ws (CMsg.chat_message text) now st =
        ([],
          { st with
            rate := (isAllowed serverMaxMessages serverWindow cid now st.rate).2 })) := by
  refine ⟨?_, ?_, ?_⟩
  · by_contra h
    rw [← alGetC_eq_none] at h
    rw [hreg] at h
    exact Option.noConfusion h
  · intro hcond
    simp only [handleMessage, hreg, hrate, not_true_eq_false, if_false,
      Bool.true_eq_false]
    rw [if_pos hcond]
    simp only [hps]
    set st2 : ServerState :=
      { st with
        rate := (isAllowed serverMaxMessages serverWindow cid now st.rate).2 } with hst2
    have hnb2 : ∀ p ∈ st2.clients, broken p.1 = false := hnb
    rw [broadcastMessage_noBroken broken _ none st2 hnb2]
    rw [show st2.clients = st.clients from rfl]
    have hfilter : (st.clients.map Prod.fst).filter (fun c => some c ≠ none) =
        st.clients.map Prod.fst := by
      rw [List.filter_eq_self]
      intro c _
      simp
    rw [hfilter]
    simp [List.map_map, Function.comp]
  · intro hcond
    simp only [handleMessage, hreg, hrate, not_true_eq_false, if_false,
      Bool.true_eq_false]
    rw [if_neg ?hc]
    case hc =>
      rcases hcond with h | h
      · exact fun hand => hand.1 h
      · exact fun hand => absurd hand.2 (by omega)

set_option maxRecDepth 4000 in
/-- Witness for C9: in the one-player server, a 200-character text is
broadcast verbatim (sender included) and a 201-character text is silently
dropped. -/
theorem chat_trim_bounds_witness :
    handleMessage neverBroken 1
        (CMsg.chat_message (some (String.mk (List.replicate 200 'a')))) 60 stW =
      (stW.clients.map (fun p => Event.sent p.1
          (SMsg.chat_message "Alice" "client_1_50"
            (String.mk (List.replicate 200 'a')) 60)),
        { stW with
          rate := (isAllowed serverMaxMessages serverWindow "client_1_50"
            60 stW.rate).2 }) ∧
    handleMessage neverBroken 1
        (CMsg.chat_message (some (String.mk (List.replicate 201 'a')))) 60 stW =
      ([],
        { stW with
          rate := (isAllowed serverMaxMessages serverWindow "client_1_50"
            60 stW.rate).2 }) := by
  constructor
  · rw [(chat_trim_bounds neverBroken 1 (some (String.mk (List.replicate 200 'a')))
      60 stW "client_1_50"
      { name := "Alice", score := 0, position := ⟨0, 0⟩, connected_at := 50 }
      (by decide) (by decide) (by decide) (by decide)).2.1 (by decide)]
    rfl
  · exact (chat_trim_bounds neverBroken 1 (some (String.mk (List.replicate 201 'a')))
      60 stW "client_1_50"
      { name := "Alice", score := 0, position := ⟨0, 0⟩, connected_at := 50 }
      (by decide) (by decide) (by decide) (by decide)).2.2 (Or.inr (by decide))

/-! ### C5: client id minting across a server lifetime

`register_client` mints `f"client_{len(self.clients) + 1}_{int(time.time())}"`.
The count resets when clients leave, and the timestamp has one-second
granularity, so a register → unregister → register sequence within the same
second mints the same id twice. -/

/-- An empty freshly started server. -/
def st0 : ServerState :=
  { lobby_code := "ABC123", clients := [], rate := [],
    game_state := { players := [], game_started := false } }

/-- C5: the code violates client-id uniqueness.  On the empty server,
connection 1 registers successfully at second 100 and is assigned
`"client_1_100"`; it unregisters; the distinct connection 2 then registers
successfully at the same second 100 and is assigned `"client_1_100"` again:
the id is reused within one server lifetime. -/
theorem client_id_reuse :
    ∃ evs1 st1 evs2 st2 evs3 st3,
      registerClient neverBroken 1 ⟨some "ABC123", some "Alice"⟩ 100 st0 =
        (true, evs1, st1) ∧
      unregisterClient neverBroken 1 st1 = (evs2, st2) ∧
      registerClient neverBroken 2 ⟨some "ABC123", some "Bob"⟩ 100 st2 =
        (true, evs3, st3) ∧
      alGetC 1 st1.clients = some "client_1_100" ∧
      alGetC 2 st3.clients = some "client_1_100" := by
  have h1 : registerClient neverBroken 1 ⟨some "ABC123", some "Alice"⟩ 100 st0 =
      (true, [Event.sent 1 (SMsg.welcome "client_1_100" "Alice" "ABC123")],
        { lobby_code := "ABC123", clients := [(1, "client_1_100")], rate := [],
          game_state :=
            { players := [("client_1_100",
                { name := "Alice", score := 0, position := ⟨0, 0⟩,
                  connected_at := 100 })],
              game_started := false } }) := by
    rw [registerClient_spec neverBroken 1 ⟨some "ABC123", some "Alice"⟩ 100 st0
      (by decide) (by decide) (by decide) (by decide) (by decide)]
    rfl
  have h2 : unregisterClient neverBroken 1
      { lobby_code := "ABC123", clients := [(1, "client_1_100")], rate := [],
        game_state :=
          { players := [("client_1_100",
              { name := "Alice", score := 0, position := ⟨0, 0⟩,
                connected_at := 100 })],
            game_started := false } } = ([], st0) := by
    rw [unregisterClient_spec neverBroken 1 "client_1_100" _ (by decide) (by decide)]
    rfl
  have h3 : registerClient neverBroken 2 ⟨some "ABC123", some "Bob"⟩ 100 st0 =
      (true, [Event.sent 2 (SMsg.welcome "client_1_100" "Bob" "ABC123")],
        { lobby_code := "ABC123", clients := [(2, "client_1_100")], rate := [],
          game_state :=
            { players := [("client_1_100",
                { name := "Bob", score := 0, position := ⟨0, 0⟩,
                  connected_at := 100 })],
              game_started := false } }) := by
    rw [registerClient_spec neverBroken 2 ⟨some "ABC123", some "Bob"⟩ 100 st0
      (by decide) (by decide) (by decide) (by decide) (by decide)]
    rfl
  exact ⟨_, _, _, _, _, _, h1, h2, h3, by decide, by decide⟩

/-! ### C6: the `game_state` reply aliases the live state

The source replies `{"type": "game_state", "state": self.game_state}`; in
Python the value sent onward is a reference to the same live dict, not a
copy.  Pure Lean values cannot express that sharing, so this fragment embeds
the object semantics explicitly: a heap of `GameState` objects addressed by
index, the server holding the address of the live aggregate, and the reply
carrying an address. -/

namespace RefModel

/-- Position-indexed lookup (Python object dereference). -/
def lookupAt {α : Type} : List α → Nat → Option α
  | [], _ => none
  | x :: _, 0 => some x
  | _ :: l, n + 1 => lookupAt l n

/-- Position-indexed update (in-place mutation of a heap object). -/
def setAt {α : Type} : List α → Nat → α → List α
  | [], _, _ => []
  | _ :: l, 0, x => x :: l
  | y :: l, n + 1, x => y :: setAt l n x

/-- The heap of `GameState` objects; an address is an index. -/
structure Heap where
  objs : List GameState
deriving Repr, DecidableEq

def Heap.read (h : Heap) (a : Nat) : Option GameState := lookupAt h.objs a

def Heap.write (h : Heap) (a : Nat) (g : GameState) : Heap := ⟨setAt h.objs a g⟩

/-- The server object holds a reference to its live `game_state`. -/
structure ServerObj where
  gsAddr : Nat
deriving Repr, DecidableEq

/-- The `state` field of the `game_state` reply in `handle_message`: the
source passes `self.game_state` itself, so the reply carries the live
object's address. -/
def gameStateReplyAddr (sv : ServerObj) : Nat := sv.gsAddr

/-- A recipient mutating the object it received in the reply. -/
def mutateReply (h : Heap) (sv : ServerObj) (f : GameState → GameState) : Heap :=
  match h.read (gameStateReplyAddr sv) with
  | some g => h.write (gameStateReplyAddr sv) (f g)
  | none => h

/-- Modelled from the spec: "a read-only snapshot accessor returns a deep
copy of GameState (never the live structure)" — the reply would allocate a
fresh object and carry the copy's address. -/
def gameStateSnapshotReply (h : Heap) (sv : ServerObj) : Heap × Nat :=
  match h.read sv.gsAddr with
  | some g => (⟨h.objs ++ [g]⟩, h.objs.length)
  | none => (h, sv.gsAddr)

theorem read_write_self {α : Type} :
    ∀ (l : List α) (a : Nat) (g x : α), lookupAt l a = some g →
      lookupAt (setAt l a x) a = some x
  | [], a, g, x, h => by simp [lookupAt] at h
  | _ :: l, 0, g, x, _ => rfl
  | b :: l, a + 1, g, x, h => read_write_self l a g x h

/-- Counterexample to C6: in a heap holding the server's one live
`GameState`, mutating the value returned by the `game_state` reply changes
the registry's stored `GameState` — the reply was not a copy. -/
theorem game_state_reply_not_copy :
    (RefModel.mutateReply ⟨[{ players := [], game_started := false }]⟩ ⟨0⟩
        (fun g => { g with game_started := true })).read 0 ≠
      (⟨[{ players := [], game_started := false }]⟩ : RefModel.Heap).read 0 := by
  decide

/-- C6 (amended): the `game_state` reply carries the live `GameState`, not a
deep copy — the reply's address is the server's own, and a mutation applied
through the returned value is visible in the stored state and hence in every
subsequent query. -/
theorem game_state_reply_aliases (h : RefModel.Heap) (sv : RefModel.ServerObj)
    (f : GameState → GameState) (g : GameState)
    (hg : h.read sv.gsAddr = some g) :
    RefModel.gameStateReplyAddr sv = sv.gsAddr ∧
    (RefModel.mutateReply h sv f).read sv.gsAddr = some (f g) := by
  refine ⟨rfl, ?_⟩
  rw [RefModel.mutateReply, RefModel.gameStateReplyAddr, hg]
  exact read_write_self h.objs sv.gsAddr g (f g) hg

/-- Witness for the amended C6: flipping `game_started` through the reply is
seen by the next read of the server's stored state. -/
theorem game_state_reply_aliases_witness :
    RefModel.gameStateReplyAddr ⟨0⟩ = (0 : Nat) ∧
    (RefModel.mutateReply ⟨[{ players := [], game_started := false }]⟩ ⟨0⟩
        (fun g => { g with game_started := true })).read 0 =
      some { players := [], game_started := true } :=
  game_state_reply_aliases ⟨[{ players := [], game_started := false }]⟩ ⟨0⟩
    (fun g => { g with game_started := true })
    { players := [], game_started := false } rfl

end RefModel

end FishGame
